import Mathlib

/-!
Verification of `classifiers.py`: three text-classification model variants
(RNN, CNN, CamembertClassifier) and the shared `train` loop.

Tensors are modelled at the shape level (`Shape := List Nat`); scalar
statistics (losses, accuracies) are modelled as rationals.  Fallible
tensor operations return `Except String`.
-/

namespace Classifiers

/-- Torch device, as produced by `torch.device("cuda" if ... else "cpu")`. -/
inductive TorchDevice
  | cpu
  | cuda
  deriving DecidableEq

/-- `classifiers.py` line 92: `device = torch.device("cuda" if torch.cuda.is_available() else "cpu")`. -/
def selectDevice (cuda_is_available : Bool) : TorchDevice :=
  if cuda_is_available then TorchDevice.cuda else TorchDevice.cpu

/-- `classifiers.py` line 93: `model = model.to(device)` — unconditional,
performed before the epoch loop and independent of the `gpu` flag. -/
def modelDeviceAfterMove (cuda_is_available : Bool) : TorchDevice :=
  selectDevice cuda_is_available

/-- `classifiers.py` lines 120–121: batch tensors start on the CPU and are moved
to `device` only when the `gpu` flag is true. -/
def batchTensorDevice (cuda_is_available gpu : Bool) : TorchDevice :=
  if gpu then selectDevice cuda_is_available else TorchDevice.cpu

/-- The divisor used by the training-history update at lines 154–155
(`hist['loss'].append(running_loss/it)`): after the `for it, data in
enumerate(train_loader)` loop, `it` holds the last zero-based iteration
index, i.e. `n_batches - 1`; when the loader yields no batches the
variable `it` is unbound (`none`). -/
def trainHistDivisor (n_batches : Nat) : Option Nat :=
  if n_batches = 0 then none else some (n_batches - 1)

/-- Modelled from the spec: the early-stopping monitor `EarlyStopping` lives in
`utils/pytorchtools.py`, which is not among the provided sources.  Per the
spec it "tracks a monitored scalar (validation loss) across epochs ... and
signals termination after a configurable number of non-improving epochs":
`best` is the best validation loss seen so far, `counter` the number of
consecutive non-improving epochs, `early_stop` the termination flag. -/
structure ESState where
  best : Option ℚ
  counter : Nat
  early_stop : Bool
  deriving DecidableEq

/-- Modelled from the spec: initial monitor state, nothing observed. -/
def esInit : ESState := ⟨none, 0, false⟩

/-- Modelled from the spec: one `early_stopping(loss_validation, model)` call.
An improving epoch resets the counter; a non-improving epoch increments it,
and the flag is raised once the counter reaches the patience. -/
def esStep (patience : Nat) (s : ESState) (val_loss : ℚ) : ESState :=
  match s.best with
  | none => { s with best := some val_loss }
  | some b =>
    if val_loss < b then
      { s with best := some val_loss, counter := 0 }
    else
      let c := s.counter + 1
      { s with counter := c, early_stop := s.early_stop || decide (patience ≤ c) }

/-- Per-run inputs of `train` (lines 82–85) that the history/scheduler/early
stopping claims depend on.  A batch is abstracted to the pair of the scalar
loss (`criterion(...)`, line 134) and scalar accuracy (line 143) it produces;
`trainBatches e` (resp. `valBatches e`) lists these pairs for the batches the
training (resp. validation) loader yields in epoch `e`.  `hasScheduler` is
`scheduler is not None`, `activateES` the `activate_early_stopping` flag. -/
structure TrainCfg where
  nEpochs : Nat
  trainBatches : Nat → List (ℚ × ℚ)
  valBatches : Nat → List (ℚ × ℚ)
  hasScheduler : Bool
  activateES : Bool
  patience : Nat

/-- Mutable state of the `train` loop: the two parallel history pairs
(`hist`, `val_hist`, lines 98–99), the values passed to `scheduler.step`
(line 151), the early-stopping monitor state and the number of completed
epoch iterations. -/
structure LoopState where
  histLoss : List ℚ
  histAcc : List ℚ
  valHistLoss : List ℚ
  valHistAcc : List ℚ
  schedCalls : List ℚ
  es : ESState
  epochsRun : Nat

/-- The empty state entering the epoch loop at line 100. -/
def initLoopState : LoopState := ⟨[], [], [], [], [], esInit, 0⟩

/-- One iteration of the epoch loop (lines 100–209):
`running_loss`/`running_accuracy` accumulate over the training batches
(lines 135, 144); the scheduler, if configured, is stepped once with the
accumulated `running_loss` (lines 150–151); the training history receives
`running_loss/it` and `running_accuracy/it` with `it` the last zero-based
training iteration index (lines 154–155); the validation history receives
the validation sums divided by `n_batch_validation`, the exact number of
validation batches (lines 190, 201–202); finally the early-stopping monitor
is consulted when active (lines 204–205). -/
def runEpoch (cfg : TrainCfg) (ep : Nat) (st : LoopState) : LoopState :=
  let tb := cfg.trainBatches ep
  let running_loss : ℚ := (tb.map Prod.fst).sum
  let running_accuracy : ℚ := (tb.map Prod.snd).sum
  let it : Nat := tb.length - 1
  let vb := cfg.valBatches ep
  let n_batch_validation : Nat := vb.length
  let loss_validation : ℚ := (vb.map Prod.fst).sum
  let accuracy_validation : ℚ := (vb.map Prod.snd).sum
  { histLoss := st.histLoss ++ [running_loss / (it : ℚ)]
    histAcc := st.histAcc ++ [running_accuracy / (it : ℚ)]
    valHistLoss := st.valHistLoss ++ [loss_validation / (n_batch_validation : ℚ)]
    valHistAcc := st.valHistAcc ++ [accuracy_validation / (n_batch_validation : ℚ)]
    schedCalls := st.schedCalls ++ (if cfg.hasScheduler then [running_loss] else [])
    es := if cfg.activateES then esStep cfg.patience st.es loss_validation else st.es
    epochsRun := st.epochsRun + 1 }

/-- The epoch loop over the remaining epoch indices: after each epoch, if
early stopping is active and the monitor's flag is set, the loop `break`s
(lines 204–208). -/
def trainEpochs (cfg : TrainCfg) : List Nat → LoopState → LoopState
  | [], st => st
  | ep :: rest, st =>
    let st2 := runEpoch cfg ep st
    if cfg.activateES && st2.es.early_stop then st2
    else trainEpochs cfg rest st2

/-- `train` (lines 82–209, result state): run the epoch loop for
`ep in range(n_epochs)` starting from the empty histories. -/
def train (cfg : TrainCfg) : LoopState :=
  trainEpochs cfg (List.range cfg.nEpochs) initLoopState

/-! ### Variant dispatch in the training loop -/

/-- The `ValueError` message raised at lines 114, 131, 174 and 188
(Python: `f-string` interpolating `model_type`). -/
def unsupportedMsg (model_type : String) : String :=
  "Model type \"" ++ model_type ++ "\" not supported."

/-- The training-batch unpacking site, lines 109–114: `'bert'` unpacks a
triple, `'rnn'` and `'cnn'` unpack a pair and synthesize a placeholder
attention mask, any other string raises `ValueError`. -/
def unpackSite (model_type : String) : Except String Unit :=
  if model_type = "bert" then Except.ok ()
  else if model_type = "rnn" || model_type = "cnn" then Except.ok ()
  else Except.error (unsupportedMsg model_type)

/-- The forward-dispatch site, lines 123–131: `'rnn'`, `'cnn'` and `'bert'`
each call the model's forward pass; any other string raises `ValueError`. -/
def dispatchSite (model_type : String) : Except String Unit :=
  if model_type = "rnn" then Except.ok ()
  else if model_type = "cnn" then Except.ok ()
  else if model_type = "bert" then Except.ok ()
  else Except.error (unsupportedMsg model_type)

/-- Control flow of the training loop of one epoch (lines 107–147) restricted
to the unpack and dispatch sites: for each batch, run the unpack site, then
the dispatch site (whose success is a model forward pass).  Returns the
number of forward passes executed together with the first raised error, if
any; a raise aborts the loop (and, uncaught, the whole `train` call). -/
def trainingForwards (model_type : String) : List Unit → Nat × Except String Unit
  | [] => (0, Except.ok ())
  | _ :: rest =>
    match unpackSite model_type with
    | Except.error e => (0, Except.error e)
    | Except.ok _ =>
      match dispatchSite model_type with
      | Except.error e => (0, Except.error e)
      | Except.ok _ =>
        let r := trainingForwards model_type rest
        (r.1 + 1, r.2)

/-! ### RNN hidden-state threading -/

/-- The shape of one element of the LSTM hidden-state pair. -/
abbrev HiddenShape := Nat × Nat × Nat

/-- `RNN.init_hidden` (lines 37–42): both elements of the pair are
zero tensors of shape `(n_layers, batch_size, hidden_dim)`. -/
def init_hidden (n_layers hidden_dim batch_size : Nat) : HiddenShape × HiddenShape :=
  ((n_layers, batch_size, hidden_dim), (n_layers, batch_size, hidden_dim))

/-- Shape behaviour of `nn.LSTM` on the hidden pair for an input batch of
size `B`: torch requires both incoming hidden shapes to be
`(n_layers, B, hidden_dim)` (otherwise the forward call raises
`RuntimeError: Expected hidden size ...`), and returns a hidden pair of
the same shape. -/
def lstmHiddenStep (n_layers hidden_dim B : Nat) (h : HiddenShape × HiddenShape) :
    Except String (HiddenShape × HiddenShape) :=
  if h = ((n_layers, B, hidden_dim), (n_layers, B, hidden_dim)) then
    Except.ok ((n_layers, B, hidden_dim), (n_layers, B, hidden_dim))
  else Except.error "Expected hidden size mismatch"

/-- The sequence of hidden-state pairs threaded into the RNN forward calls of
one loop (training: lines 123–125; validation: lines 180–182), given the
batch sizes the loader yields.  `h = tuple([e.data for e in h])` detaches but
does not reshape, so the pair entering iteration `i+1` is the pair returned
by iteration `i`.  Each list entry is the pair passed into that iteration's
forward call; a raising forward call aborts the loop after receiving it. -/
def rnnHiddenIns (n_layers hidden_dim : Nat) (h : HiddenShape × HiddenShape) :
    List Nat → List (HiddenShape × HiddenShape)
  | [] => []
  | B :: rest =>
    match lstmHiddenStep n_layers hidden_dim B h with
    | Except.ok h2 => h :: rnnHiddenIns n_layers hidden_dim h2 rest
    | Except.error _ => [h]

/-- Hidden pairs threaded into the forward calls of one epoch's loop:
`init_hidden` is called once per loop with the loader's configured
`batch_size` (lines 104–105 and 163–164), then threaded. -/
def epochHiddenIns (n_layers hidden_dim loader_batch_size : Nat) (sizes : List Nat) :
    List (HiddenShape × HiddenShape) :=
  rnnHiddenIns n_layers hidden_dim (init_hidden n_layers hidden_dim loader_batch_size) sizes

/-! ### Forward pipelines as operation lists

A structural view of each variant's `forward` body: the tensor operations
applied to the input, in order.  Used to settle where the final linear
layer sits relative to activations. -/

/-- One tensor operation appearing in a `forward` body. -/
inductive TensorOp
  | toLong
  | embedding
  | lstm
  | indexLastToken
  | dropout
  | linear
  | sigmoid
  | view
  | unsqueeze
  | convReluSqueeze
  | maxPoolSqueeze
  | cat
  | encoder
  | indexClsToken
  deriving DecidableEq

/-- `RNN.forward` (lines 25–35): `x.long()`; `self.embedding`; `self.lstm`;
`lstm_out[:,-1,:]`; `self.dropout`; `self.fc`; `self.sigmoid`;
`out.view(batch_size, -1)`. -/
def rnn_forward_ops : List TensorOp :=
  [TensorOp.toLong, TensorOp.embedding, TensorOp.lstm, TensorOp.indexLastToken,
   TensorOp.dropout, TensorOp.linear, TensorOp.sigmoid, TensorOp.view]

/-- `CNN.forward` (lines 56–65): `x.long()`; `self.embedding`;
`x.unsqueeze(1)`; the `F.relu(conv(x)).squeeze(3)` comprehension; the
`F.max_pool1d(i, i.size(2)).squeeze(2)` comprehension; `torch.cat(x, 1)`;
`self.dropout`; `self.fc1`. -/
def cnn_forward_ops : List TensorOp :=
  [TensorOp.toLong, TensorOp.embedding, TensorOp.unsqueeze, TensorOp.convReluSqueeze,
   TensorOp.maxPoolSqueeze, TensorOp.cat, TensorOp.dropout, TensorOp.linear]

/-- `CamembertClassifier.forward` (lines 74–79): `self.encoder`;
`cont_reps[:, 0]`; `self.cls_layer`. -/
def bert_forward_ops : List TensorOp :=
  [TensorOp.encoder, TensorOp.indexClsToken, TensorOp.linear]

/-- The operations a `forward` body applies after its last linear layer. -/
def opsAfterLastLinear (ops : List TensorOp) : List TensorOp :=
  (ops.reverse.takeWhile (fun o => decide (o ≠ TensorOp.linear))).reverse

/-! ### Shape semantics of the `forward` methods -/

/-- A tensor shape: the list of dimension sizes. -/
abbrev Shape := List Nat

/-- `nn.Embedding(_, embedding_dim)` on an index tensor: appends the
embedding dimension. -/
def embeddingShape (embedding_dim : Nat) (s : Shape) : Shape :=
  s ++ [embedding_dim]

/-- `nn.Dropout` preserves the shape. -/
def dropoutShape (s : Shape) : Shape := s

/-- `nn.Sigmoid` (elementwise) preserves the shape. -/
def sigmoidShape (s : Shape) : Shape := s

/-- `nn.LSTM(input_size, hidden_dim, n_layers, batch_first=True)` on input
`(B, T, input_size)` with hidden pair `(n_layers, B, hidden_dim)` each:
output `(B, T, hidden_dim)`. -/
def lstmShape (input_size hidden_dim n_layers : Nat) (s : Shape)
    (h : HiddenShape × HiddenShape) : Except String Shape :=
  match s with
  | [B, T, E] =>
    if E ≠ input_size then Except.error "lstm input size mismatch"
    else if h ≠ ((n_layers, B, hidden_dim), (n_layers, B, hidden_dim)) then
      Except.error "lstm hidden size mismatch"
    else Except.ok [B, T, hidden_dim]
  | _ => Except.error "lstm expects a 3d batch-first input"

/-- `t[:, -1, :]` on a 3d tensor: needs a nonempty middle dimension. -/
def indexLastShape : Shape → Except String Shape
  | [B, T, H] => if T = 0 then Except.error "index -1 out of range" else Except.ok [B, H]
  | _ => Except.error "expects a 3d tensor"

/-- `nn.Linear(in_features, out_features)`: the last dimension must equal
`in_features` and becomes `out_features`. -/
def linearShape (in_features out_features : Nat) (s : Shape) : Except String Shape :=
  match s.getLast? with
  | some d =>
    if d = in_features then Except.ok (s.dropLast ++ [out_features])
    else Except.error "linear in_features mismatch"
  | none => Except.error "linear on a scalar"

/-- `t.view(B, -1)`: the element count must be a positive multiple of `B`. -/
def viewBatchShape (B : Nat) (s : Shape) : Except String Shape :=
  if B ≠ 0 ∧ s.prod % B = 0 then Except.ok [B, s.prod / B]
  else Except.error "view size mismatch"

/-- `t.unsqueeze(1)`: inserts a dimension of size 1 at position 1. -/
def unsqueeze1Shape (s : Shape) : Shape :=
  s.take 1 ++ [1] ++ s.drop 1

/-- `t.squeeze(d)`: removes dimension `d` when its size is 1, otherwise
leaves the shape unchanged. -/
def squeezeShape (d : Nat) (s : Shape) : Shape :=
  if s.get? d = some 1 then s.take d ++ s.drop (d + 1) else s

/-- `nn.Conv2d(in_channels, out_channels, (kH, kW))` on `(B, C, H, W)`:
valid (no-padding) cross-correlation. -/
def conv2dShape (in_channels out_channels kH kW : Nat) : Shape → Except String Shape
  | [B, C, H, W] =>
    if C ≠ in_channels then Except.error "conv2d channel mismatch"
    else if kH = 0 ∨ kW = 0 then Except.error "conv2d empty kernel"
    else if H < kH ∨ W < kW then Except.error "conv2d kernel exceeds input"
    else Except.ok [B, out_channels, H - kH + 1, W - kW + 1]
  | _ => Except.error "conv2d expects a 4d tensor"

/-- `F.max_pool1d(i, i.size(2))` on `(B, C, L)`: a full-width pool, kernel
size must be positive. -/
def maxPool1dFullShape : Shape → Except String Shape
  | [B, C, L] => if L = 0 then Except.error "max_pool1d empty kernel" else Except.ok [B, C, 1]
  | _ => Except.error "max_pool1d expects a 3d tensor"

/-- Accumulating step of `torch.cat(xs, 1)` over 2d tensors. -/
def catGo : Shape → List Shape → Except String Shape
  | acc, [] => Except.ok acc
  | acc, s :: rest =>
    match acc, s with
    | [B0, n0], [B1, n1] =>
      if B1 = B0 then catGo [B0, n0 + n1] rest
      else Except.error "cat batch mismatch"
    | _, _ => Except.error "cat expects 2d tensors"

/-- `torch.cat(xs, 1)` over a list of 2d tensors `(B, n_i)`: concatenates
the second dimension; the list must be nonempty. -/
def catDim1Shape : List Shape → Except String Shape
  | [] => Except.error "cat of an empty tensor list"
  | s :: rest => catGo s rest

/-- Hyperparameters of `RNN.__init__` (lines 10–23). -/
structure RNNCfg where
  vocab_size : Nat
  output_size : Nat
  embedding_dim : Nat
  hidden_dim : Nat
  n_layers : Nat

/-- Shape semantics of `RNN.forward` (lines 25–35) on input `x` with hidden
pair `h`: embedding, LSTM, last-token slice, dropout, `fc`
(`Linear(hidden_dim, output_size)`), sigmoid, `view(batch_size, -1)`. -/
def RNN.forwardShape (cfg : RNNCfg) (x : Shape) (h : HiddenShape × HiddenShape) :
    Except String Shape :=
  match x with
  | [B, T] => do
    let embeds := embeddingShape cfg.embedding_dim [B, T]
    let lstm_out ← lstmShape cfg.embedding_dim cfg.hidden_dim cfg.n_layers embeds h
    let out1 ← indexLastShape lstm_out
    let out2 := dropoutShape out1
    let out3 ← linearShape cfg.hidden_dim cfg.output_size out2
    let out4 := sigmoidShape out3
    viewBatchShape B out4
  | _ => Except.error "rnn expects a 2d index tensor"

/-- Hyperparameters of `CNN.__init__` (lines 46–54). -/
structure CNNCfg where
  max_features : Nat
  embed_size : Nat
  num_filters : List Nat
  filter_sizes : List Nat

/-- One element of the two comprehensions of `CNN.forward` (lines 60–61) for a
conv layer `Conv2d(1, n, (K, embed_size))` built by the `zip` at line 52:
`F.relu(conv(x)).squeeze(3)` then `F.max_pool1d(i, i.size(2)).squeeze(2)`
(`F.relu` preserves the shape). -/
def convBranchShape (embed_size : Nat) (u : Shape) (p : Nat × Nat) : Except String Shape := do
  let c ← conv2dShape 1 p.1 p.2 embed_size u
  let c1 := squeezeShape 3 c
  let c2 ← maxPool1dFullShape c1
  Except.ok (squeezeShape 2 c2)

/-- The shapes produced by the comprehensions of `CNN.forward` for the conv
layers `zip(num_filters, filter_sizes)`, in order. -/
def convBranches (embed_size : Nat) (u : Shape) : List (Nat × Nat) → Except String (List Shape)
  | [] => Except.ok []
  | p :: rest => do
    let s ← convBranchShape embed_size u p
    let rest2 ← convBranches embed_size u rest
    Except.ok (s :: rest2)

/-- Shape semantics of `CNN.forward` (lines 56–65): embedding,
`unsqueeze(1)`, the conv/pool comprehensions, `torch.cat(_, 1)`, dropout,
`fc1` (`Linear(num_filters[-1]*len(filter_sizes), 5)`, line 54;
`num_filters[-1]` on an empty list is an `IndexError`). -/
def CNN.forwardShape (cfg : CNNCfg) (x : Shape) : Except String Shape :=
  match x with
  | [B, T] => do
    let e := embeddingShape cfg.embed_size [B, T]
    let u := unsqueeze1Shape e
    let branches ← convBranches cfg.embed_size u (cfg.num_filters.zip cfg.filter_sizes)
    let catted ← catDim1Shape branches
    let d := dropoutShape catted
    match cfg.num_filters.getLast? with
    | some nlast => linearShape (nlast * cfg.filter_sizes.length) 5 d
    | none => Except.error "num_filters is empty"
  | _ => Except.error "cnn expects a 2d index tensor"

/-- Configuration of `CamembertClassifier` that shape semantics depend on:
the encoder hidden size `self.encoder.pooler.dense.out_features` (line 72). -/
structure BertCfg where
  encoder_hidden : Nat

/-- Shape behaviour of the external `CamembertModel` encoder (line 75): on
token ids `(B, T)` with an attention mask of the same shape, the last hidden
states `cont_reps` have shape `(B, T, hidden)`. -/
def encoderShape (hidden : Nat) (seq attn : Shape) : Except String Shape :=
  match seq, attn with
  | [B, T], [B2, T2] =>
    if B2 = B ∧ T2 = T then Except.ok [B, T, hidden]
    else Except.error "attention mask shape mismatch"
  | _, _ => Except.error "encoder expects 2d id tensors"

/-- `cont_reps[:, 0]` (line 76): needs a nonempty token dimension. -/
def indexClsShape : Shape → Except String Shape
  | [B, T, H] => if T = 0 then Except.error "index 0 out of range" else Except.ok [B, H]
  | _ => Except.error "expects a 3d tensor"

/-- Shape semantics of `CamembertClassifier.forward` (lines 74–79): encoder,
`[CLS]` slice, `cls_layer` (`Linear(encoder_hidden, 5)`, line 72). -/
def CamembertClassifier.forwardShape (cfg : BertCfg) (seq attn : Shape) :
    Except String Shape := do
  let cont_reps ← encoderShape cfg.encoder_hidden seq attn
  let cls_rep ← indexClsShape cont_reps
  linearShape cfg.encoder_hidden 5 cls_rep

/-! ### Concrete run configurations, used to evaluate the theorems -/

/-- A two-epoch run: three training batches and two validation batches per
epoch, a configured scheduler, no early stopping. -/
def cfg0 : TrainCfg where
  nEpochs := 2
  trainBatches := fun _ => [(1, 1), (2, 0), (3, 1)]
  valBatches := fun _ => [(2, 1), (4, 0)]
  hasScheduler := true
  activateES := false
  patience := 1

/-- A one-epoch run whose training loader yields exactly one batch. -/
def cfgSingle : TrainCfg where
  nEpochs := 1
  trainBatches := fun _ => [(5, 1)]
  valBatches := fun _ => [(1, 1)]
  hasScheduler := false
  activateES := false
  patience := 1

/-- A concrete RNN configuration: vocabulary 10, 4 output classes,
embedding 5, hidden 6, 2 layers. -/
def rnnCfg0 : RNNCfg := ⟨10, 4, 5, 6, 2⟩

/-- A concrete CNN configuration: 100 features, embedding 4, two conv
layers of 2 filters each with kernel heights 2 and 3. -/
def cnnCfg0 : CNNCfg := ⟨100, 4, [2, 2], [2, 3]⟩

/-- A concrete Camembert configuration with encoder hidden size 768. -/
def bertCfg0 : BertCfg := ⟨768⟩

/-! ## Theorems -/

/-- C9: `train` moves the model to the CUDA device whenever CUDA is
available, independently of the `gpu` flag (`modelDeviceAfterMove` takes no
`gpu` argument at all), while batch tensors are moved only when `gpu` is
true; with `gpu = False` on a CUDA-equipped machine the model and the batch
tensors therefore reside on different devices. -/
theorem C9_device_mismatch :
    modelDeviceAfterMove true = TorchDevice.cuda ∧
    (∀ cuda_is_available : Bool, batchTensorDevice cuda_is_available false = TorchDevice.cpu) ∧
    modelDeviceAfterMove true ≠ batchTensorDevice true false := by
  refine ⟨rfl, ?_, by decide⟩
  intro cuda
  cases cuda <;> rfl

/-- C8: with exactly one training batch the training-history divisor `it` is
zero (the history update divides the running sums by zero); with no training
batches the loop variable `it` is unbound (`none`); the divisor is a bound,
positive value exactly when the loader yields at least two batches. -/
theorem C8_degenerate_train_divisor :
    trainHistDivisor 1 = some 0 ∧
    trainHistDivisor 0 = none ∧
    (∀ (cfg : TrainCfg) (ep : Nat) (st : LoopState),
      (cfg.trainBatches ep).length = 1 →
      (runEpoch cfg ep st).histLoss =
        st.histLoss ++ [((cfg.trainBatches ep).map Prod.fst).sum / (0 : ℚ)] ∧
      (runEpoch cfg ep st).histAcc =
        st.histAcc ++ [((cfg.trainBatches ep).map Prod.snd).sum / (0 : ℚ)]) ∧
    (∀ n : Nat, (∃ d, trainHistDivisor n = some d ∧ 1 ≤ d) ↔ 2 ≤ n) := by
  refine ⟨rfl, rfl, ?_, ?_⟩
  · intro cfg ep st h1
    constructor <;> simp [runEpoch, h1]
  · intro n
    constructor
    · rintro ⟨d, hd, hd1⟩
      by_cases h0 : n = 0
      · simp [trainHistDivisor, h0] at hd
      · simp [trainHistDivisor, h0] at hd
        omega
    · intro h2
      refine ⟨n - 1, ?_, by omega⟩
      simp [trainHistDivisor]
      omega

/-- C8 witness: the one-batch configuration `cfgSingle` hits the zero
divisor. -/
theorem C8_degenerate_train_divisor_witness :
    (runEpoch cfgSingle 0 initLoopState).histLoss =
      initLoopState.histLoss ++ [((cfgSingle.trainBatches 0).map Prod.fst).sum / (0 : ℚ)] ∧
    (runEpoch cfgSingle 0 initLoopState).histAcc =
      initLoopState.histAcc ++ [((cfgSingle.trainBatches 0).map Prod.snd).sum / (0 : ℚ)] :=
  C8_degenerate_train_divisor.2.2.1 cfgSingle 0 initLoopState (by decide)

/-- C2: for any `model_type` other than `"rnn"`, `"cnn"` and `"bert"`, the
training-batch unpacking site raises `ValueError`; on a nonempty training
loader the loop aborts at the first batch with zero forward passes executed
and no fallback attempted; and the forward-dispatch site raises the same
`ValueError` for that `model_type`. -/
theorem C2_unsupported_model_type (model_type : String) (batches : List Unit)
    (h1 : model_type ≠ "rnn") (h2 : model_type ≠ "cnn") (h3 : model_type ≠ "bert")
    (hl : batches ≠ []) :
    unpackSite model_type = Except.error (unsupportedMsg model_type) ∧
    dispatchSite model_type = Except.error (unsupportedMsg model_type) ∧
    trainingForwards model_type batches = (0, Except.error (unsupportedMsg model_type)) := by
  have hu : unpackSite model_type = Except.error (unsupportedMsg model_type) := by
    simp [unpackSite, h1, h2, h3]
  refine ⟨hu, ?_, ?_⟩
  · simp [dispatchSite, h1, h2, h3]
  · cases batches with
    | nil => exact absurd rfl hl
    | cons b rest => simp [trainingForwards, hu]

/-- C2 witness: `model_type = "transformer"` with a one-batch loader. -/
theorem C2_unsupported_model_type_witness :
    unpackSite "transformer" = Except.error (unsupportedMsg "transformer") ∧
    dispatchSite "transformer" = Except.error (unsupportedMsg "transformer") ∧
    trainingForwards "transformer" [()] =
      (0, Except.error (unsupportedMsg "transformer")) :=
  C2_unsupported_model_type "transformer" [()] (by decide) (by decide) (by decide) (by decide)

/-- C5 counterexample: the claim "forward returns the raw output of the final
linear classification layer" fails for the RNN variant, whose `forward`
applies `self.sigmoid` to the output of `self.fc` before returning (lines
32–33): after its last linear layer the RNN pipeline still contains a
sigmoid, not only reshaping. -/
theorem C5_raw_scores_counterexample :
    opsAfterLastLinear rnn_forward_ops = [TensorOp.sigmoid, TensorOp.view] ∧
    ¬ (∀ o ∈ opsAfterLastLinear rnn_forward_ops, o = TensorOp.view) := by
  constructor
  · rfl
  · decide

/-- C5 amended: the CNN and Camembert variants return the raw output of
their final linear layer (no operation follows it); the RNN variant instead
applies an elementwise sigmoid (then a reshape) to its final linear layer's
output — still no cross-class normalization, but not the raw linear
output. -/
theorem C5_raw_scores_amended :
    opsAfterLastLinear cnn_forward_ops = [] ∧
    opsAfterLastLinear bert_forward_ops = [] ∧
    opsAfterLastLinear rnn_forward_ops = [TensorOp.sigmoid, TensorOp.view] := by
  refine ⟨rfl, rfl, rfl⟩

/-- C1: each epoch appends to the training history the accumulated running
loss (resp. accuracy) divided by `it`, the last zero-based training
iteration index (`n_train_batches - 1`, per `trainHistDivisor`), and to the
validation history the accumulated validation loss (resp. accuracy) divided
by `n_batch_validation`, the exact number of validation batches.  The
hypotheses require both loaders to yield at least one batch, without which
the code raises (`it` unbound / `ZeroDivisionError`) instead of appending. -/
theorem C1_history_divisors (cfg : TrainCfg) (ep : Nat) (st : LoopState) (d : Nat)
    (hd : trainHistDivisor (cfg.trainBatches ep).length = some d)
    (hv : 1 ≤ (cfg.valBatches ep).length) :
    d = (cfg.trainBatches ep).length - 1 ∧
    (runEpoch cfg ep st).histLoss =
      st.histLoss ++ [((cfg.trainBatches ep).map Prod.fst).sum / (d : ℚ)] ∧
    (runEpoch cfg ep st).histAcc =
      st.histAcc ++ [((cfg.trainBatches ep).map Prod.snd).sum / (d : ℚ)] ∧
    (runEpoch cfg ep st).valHistLoss =
      st.valHistLoss ++
        [((cfg.valBatches ep).map Prod.fst).sum / (((cfg.valBatches ep).length : Nat) : ℚ)] ∧
    (runEpoch cfg ep st).valHistAcc =
      st.valHistAcc ++
        [((cfg.valBatches ep).map Prod.snd).sum / (((cfg.valBatches ep).length : Nat) : ℚ)] := by
  have hlen : (cfg.trainBatches ep).length ≠ 0 := by
    intro h0
    simp [trainHistDivisor, h0] at hd
  have hdd : d = (cfg.trainBatches ep).length - 1 := by
    simp [trainHistDivisor, hlen] at hd
    omega
  subst hdd
  exact ⟨rfl, rfl, rfl, rfl, rfl⟩

/-- C1 witness: the three-train-batch, two-validation-batch run `cfg0`, whose
training divisor is `2` and validation divisor `2`. -/
theorem C1_history_divisors_witness :
    (2 : Nat) = (cfg0.trainBatches 0).length - 1 ∧
    (runEpoch cfg0 0 initLoopState).histLoss =
      initLoopState.histLoss ++ [((cfg0.trainBatches 0).map Prod.fst).sum / ((2 : Nat) : ℚ)] ∧
    (runEpoch cfg0 0 initLoopState).histAcc =
      initLoopState.histAcc ++ [((cfg0.trainBatches 0).map Prod.snd).sum / ((2 : Nat) : ℚ)] ∧
    (runEpoch cfg0 0 initLoopState).valHistLoss =
      initLoopState.valHistLoss ++
        [((cfg0.valBatches 0).map Prod.fst).sum / (((cfg0.valBatches 0).length : Nat) : ℚ)] ∧
    (runEpoch cfg0 0 initLoopState).valHistAcc =
      initLoopState.valHistAcc ++
        [((cfg0.valBatches 0).map Prod.snd).sum / (((cfg0.valBatches 0).length : Nat) : ℚ)] :=
  C1_history_divisors cfg0 0 initLoopState 2 (by decide) (by decide)

/-- When every batch the loader yields has the configured batch size, the
threaded hidden pair is the initial one at every iteration. -/
theorem rnnHiddenIns_uniform (n_layers hidden_dim bs : Nat) :
    ∀ sizes : List Nat, (∀ s ∈ sizes, s = bs) →
      rnnHiddenIns n_layers hidden_dim (init_hidden n_layers hidden_dim bs) sizes =
        List.replicate sizes.length (init_hidden n_layers hidden_dim bs) := by
  intro sizes
  induction sizes with
  | nil => intro _; rfl
  | cons B rest ih =>
    intro h
    have hB : B = bs := h B (List.mem_cons_self B rest)
    subst hB
    have hstep : lstmHiddenStep n_layers hidden_dim B
        (init_hidden n_layers hidden_dim B) =
        Except.ok (init_hidden n_layers hidden_dim B) := by
      simp [lstmHiddenStep, init_hidden]
    simp only [rnnHiddenIns, hstep, List.length_cons, List.replicate_succ]
    have := ih (fun s hs => h s (List.mem_cons_of_mem B hs))
    rw [this]

/-- C3 counterexample: training loader with configured `batch_size = 2`
yielding batches of sizes `[2, 1]` (smaller final batch), `n_layers = 2`,
`hidden_dim = 3`.  The hidden pair threaded into the forward call of the
final iteration is `init_hidden 2 3 2` — batch dimension `2`, the configured
size — and not `init_hidden 2 3 1`, whose batch dimension is the current
batch size `1` as the claim requires. -/
theorem C3_hidden_shape_counterexample :
    (epochHiddenIns 2 3 2 [2, 1]).get? 1 = some (init_hidden 2 3 2) ∧
    init_hidden 2 3 2 ≠ init_hidden 2 3 1 := by
  refine ⟨rfl, by decide⟩

/-- C3 amended: the hidden pair threaded into every forward call has shape
`(n_layers, loader.batch_size, hidden_dim)` built from the loader's
configured batch size; this equals `(n_layers, current_batch_size,
hidden_dim)` at every iteration when every yielded batch has the configured
size, but when the final batch is smaller the pair threaded into its forward
call keeps the configured batch dimension and does not match the current
batch size (the LSTM forward then raises). -/
theorem C3_hidden_shape_amended (n_layers hidden_dim bs : Nat) (sizes : List Nat)
    (huni : ∀ s ∈ sizes, s = bs) :
    ∀ i, i < sizes.length →
      (epochHiddenIns n_layers hidden_dim bs sizes).get? i =
        some (init_hidden n_layers hidden_dim bs) := by
  intro i hi
  unfold epochHiddenIns
  rw [rnnHiddenIns_uniform n_layers hidden_dim bs sizes huni]
  rw [List.get?_eq_getElem?]
  rw [List.getElem?_replicate]
  simp [hi]

/-- C3 amended witness: two full-size batches of the configured size 2. -/
theorem C3_hidden_shape_amended_witness :
    (epochHiddenIns 1 4 2 [2, 2]).get? 1 = some (init_hidden 1 4 2) :=
  C3_hidden_shape_amended 1 4 2 [2, 2] (by decide) 1 (by decide)

/-- All four history lengths of a loop state agree with its epoch counter. -/
def lenInv (st : LoopState) : Prop :=
  st.histLoss.length = st.epochsRun ∧ st.histAcc.length = st.epochsRun ∧
  st.valHistLoss.length = st.epochsRun ∧ st.valHistAcc.length = st.epochsRun

theorem lenInv_initLoopState : lenInv initLoopState :=
  ⟨rfl, rfl, rfl, rfl⟩

theorem lenInv_runEpoch (cfg : TrainCfg) (ep : Nat) (st : LoopState)
    (h : lenInv st) : lenInv (runEpoch cfg ep st) := by
  obtain ⟨h1, h2, h3, h4⟩ := h
  refine ⟨?_, ?_, ?_, ?_⟩ <;> simp [runEpoch, h1, h2, h3, h4]

theorem lenInv_trainEpochs (cfg : TrainCfg) :
    ∀ (l : List Nat) (st : LoopState), lenInv st → lenInv (trainEpochs cfg l st) := by
  intro l
  induction l with
  | nil => intro st h; exact h
  | cons ep rest ih =>
    intro st h
    simp only [trainEpochs]
    split
    · exact lenInv_runEpoch cfg ep st h
    · exact ih _ (lenInv_runEpoch cfg ep st h)

theorem trainEpochs_epochsRun_le (cfg : TrainCfg) :
    ∀ (l : List Nat) (st : LoopState),
      (trainEpochs cfg l st).epochsRun ≤ st.epochsRun + l.length := by
  intro l
  induction l with
  | nil => intro st; simp [trainEpochs]
  | cons ep rest ih =>
    intro st
    simp only [trainEpochs, List.length_cons]
    have hr : (runEpoch cfg ep st).epochsRun = st.epochsRun + 1 := rfl
    split
    · omega
    · have := ih (runEpoch cfg ep st)
      omega

/-- If the epoch loop completed fewer iterations than the epoch list it was
given, the early-stopping `break` fired: the flag is active and the final
monitor state signals stop. -/
theorem trainEpochs_short_run (cfg : TrainCfg) :
    ∀ (l : List Nat) (st : LoopState),
      (trainEpochs cfg l st).epochsRun < st.epochsRun + l.length →
      cfg.activateES = true ∧ (trainEpochs cfg l st).es.early_stop = true := by
  intro l
  induction l with
  | nil =>
    intro st h
    simp [trainEpochs] at h
  | cons ep rest ih =>
    intro st h
    simp only [trainEpochs] at h ⊢
    by_cases hb : (cfg.activateES && (runEpoch cfg ep st).es.early_stop) = true
    · rw [if_pos hb] at h ⊢
      exact And.imp_left (fun x => x) (Bool.and_eq_true_iff.mp hb)
    · rw [if_neg hb] at h ⊢
      apply ih
      have hr : (runEpoch cfg ep st).epochsRun = st.epochsRun + 1 := rfl
      simp only [List.length_cons] at h
      omega

theorem schedCalls_runEpoch (cfg : TrainCfg) (ep : Nat) (st : LoopState)
    (hs : cfg.hasScheduler = true) :
    (runEpoch cfg ep st).schedCalls =
      st.schedCalls ++ [((cfg.trainBatches ep).map Prod.fst).sum] := by
  simp [runEpoch, hs]

theorem schedCalls_trainEpochs (cfg : TrainCfg) (hs : cfg.hasScheduler = true) :
    ∀ (l : List Nat) (st : LoopState),
      st.schedCalls.length = st.epochsRun →
      (trainEpochs cfg l st).schedCalls.length = (trainEpochs cfg l st).epochsRun := by
  intro l
  induction l with
  | nil => intro st h; exact h
  | cons ep rest ih =>
    intro st h
    have hstep : (runEpoch cfg ep st).schedCalls.length = (runEpoch cfg ep st).epochsRun := by
      rw [schedCalls_runEpoch cfg ep st hs]
      simp [runEpoch, h]
    simp only [trainEpochs]
    split
    · exact hstep
    · exact ih _ hstep

/-- C4: every run of `train` produces histories of length at most `n_epochs`;
a shorter run means early stopping was active and its monitor fired; and each
history has exactly one entry per completed epoch (`epochsRun`), so when the
loop breaks at epoch `k` (zero-based, `epochsRun = k + 1`) no entry exists
for any later epoch.  The hypotheses require the loaders to yield at least
one batch per epoch (otherwise the code raises mid-epoch instead of
completing the run). -/
theorem C4_history_length_bounds (cfg : TrainCfg)
    (hT : ∀ e, 1 ≤ (cfg.trainBatches e).length)
    (hV : ∀ e, 1 ≤ (cfg.valBatches e).length) :
    (train cfg).histLoss.length ≤ cfg.nEpochs ∧
    (train cfg).histAcc.length ≤ cfg.nEpochs ∧
    (train cfg).valHistLoss.length ≤ cfg.nEpochs ∧
    (train cfg).valHistAcc.length ≤ cfg.nEpochs ∧
    ((train cfg).histLoss.length < cfg.nEpochs →
      cfg.activateES = true ∧ (train cfg).es.early_stop = true) ∧
    (train cfg).histLoss.length = (train cfg).epochsRun ∧
    (train cfg).histAcc.length = (train cfg).epochsRun ∧
    (train cfg).valHistLoss.length = (train cfg).epochsRun ∧
    (train cfg).valHistAcc.length = (train cfg).epochsRun := by
  have hinv : lenInv (train cfg) :=
    lenInv_trainEpochs cfg (List.range cfg.nEpochs) initLoopState lenInv_initLoopState
  obtain ⟨h1, h2, h3, h4⟩ := hinv
  have hle : (train cfg).epochsRun ≤ cfg.nEpochs := by
    have := trainEpochs_epochsRun_le cfg (List.range cfg.nEpochs) initLoopState
    simpa [train, initLoopState] using this
  refine ⟨by omega, by omega, by omega, by omega, ?_, h1, h2, h3, h4⟩
  intro hlt
  have := trainEpochs_short_run cfg (List.range cfg.nEpochs) initLoopState
  exact this (by simp only [initLoopState] at *; rw [h1] at hlt; simpa [train] using hlt)

/-- C4 witness: the two-epoch run `cfg0` without early stopping. -/
theorem C4_history_length_bounds_witness :
    (train cfg0).histLoss.length ≤ cfg0.nEpochs ∧
    (train cfg0).histAcc.length ≤ cfg0.nEpochs ∧
    (train cfg0).valHistLoss.length ≤ cfg0.nEpochs ∧
    (train cfg0).valHistAcc.length ≤ cfg0.nEpochs ∧
    ((train cfg0).histLoss.length < cfg0.nEpochs →
      cfg0.activateES = true ∧ (train cfg0).es.early_stop = true) ∧
    (train cfg0).histLoss.length = (train cfg0).epochsRun ∧
    (train cfg0).histAcc.length = (train cfg0).epochsRun ∧
    (train cfg0).valHistLoss.length = (train cfg0).epochsRun ∧
    (train cfg0).valHistAcc.length = (train cfg0).epochsRun :=
  C4_history_length_bounds cfg0 (fun _ => by simp [cfg0]) (fun _ => by simp [cfg0])

/-- C7: when a scheduler is configured, each epoch steps it exactly once,
with the epoch's accumulated running loss — the plain sum of the per-batch
losses, not a mean — and over a whole run the number of scheduler steps
equals the number of completed epochs.  The loader-nonemptiness hypotheses
rule out the mid-epoch crashes of degenerate loaders. -/
theorem C7_scheduler_step (cfg : TrainCfg) (ep : Nat) (st : LoopState)
    (hs : cfg.hasScheduler = true)
    (hT : ∀ e, 1 ≤ (cfg.trainBatches e).length)
    (hV : ∀ e, 1 ≤ (cfg.valBatches e).length) :
    (runEpoch cfg ep st).schedCalls =
      st.schedCalls ++ [((cfg.trainBatches ep).map Prod.fst).sum] ∧
    (train cfg).schedCalls.length = (train cfg).epochsRun := by
  refine ⟨schedCalls_runEpoch cfg ep st hs, ?_⟩
  exact schedCalls_trainEpochs cfg hs (List.range cfg.nEpochs) initLoopState rfl

/-- C7 witness: `cfg0` has a scheduler; its first epoch passes the running
loss `1 + 2 + 3` to it. -/
theorem C7_scheduler_step_witness :
    (runEpoch cfg0 0 initLoopState).schedCalls =
      initLoopState.schedCalls ++ [((cfg0.trainBatches 0).map Prod.fst).sum] ∧
    (train cfg0).schedCalls.length = (train cfg0).epochsRun :=
  C7_scheduler_step cfg0 0 initLoopState rfl (fun _ => by simp [cfg0]) (fun _ => by simp [cfg0])

/-- C10: each completed epoch appends exactly one entry to each of the four
histories, and the early-stopping `break` is only reachable after both the
training and the validation entries of the epoch were appended, so at the
end of any run — early-terminated or not — the training and validation
histories have equal length.  The hypotheses require the loaders to yield at
least one batch per epoch (otherwise the code raises mid-epoch, between the
two appends for an empty validation loader). -/
theorem C10_histories_parallel (cfg : TrainCfg)
    (hT : ∀ e, 1 ≤ (cfg.trainBatches e).length)
    (hV : ∀ e, 1 ≤ (cfg.valBatches e).length) :
    (∀ (ep : Nat) (st : LoopState),
      (runEpoch cfg ep st).histLoss.length = st.histLoss.length + 1 ∧
      (runEpoch cfg ep st).histAcc.length = st.histAcc.length + 1 ∧
      (runEpoch cfg ep st).valHistLoss.length = st.valHistLoss.length + 1 ∧
      (runEpoch cfg ep st).valHistAcc.length = st.valHistAcc.length + 1) ∧
    (train cfg).histLoss.length = (train cfg).valHistLoss.length ∧
    (train cfg).histAcc.length = (train cfg).valHistAcc.length ∧
    (train cfg).histLoss.length = (train cfg).histAcc.length := by
  have hinv : lenInv (train cfg) :=
    lenInv_trainEpochs cfg (List.range cfg.nEpochs) initLoopState lenInv_initLoopState
  obtain ⟨h1, h2, h3, h4⟩ := hinv
  refine ⟨?_, by omega, by omega, by omega⟩
  intro ep st
  refine ⟨?_, ?_, ?_, ?_⟩ <;> simp [runEpoch]

/-- C10 witness: the two-epoch run `cfg0`. -/
theorem C10_histories_parallel_witness :
    (∀ (ep : Nat) (st : LoopState),
      (runEpoch cfg0 ep st).histLoss.length = st.histLoss.length + 1 ∧
      (runEpoch cfg0 ep st).histAcc.length = st.histAcc.length + 1 ∧
      (runEpoch cfg0 ep st).valHistLoss.length = st.valHistLoss.length + 1 ∧
      (runEpoch cfg0 ep st).valHistAcc.length = st.valHistAcc.length + 1) ∧
    (train cfg0).histLoss.length = (train cfg0).valHistLoss.length ∧
    (train cfg0).histAcc.length = (train cfg0).valHistAcc.length ∧
    (train cfg0).histLoss.length = (train cfg0).histAcc.length :=
  C10_histories_parallel cfg0 (fun _ => by simp [cfg0]) (fun _ => by simp [cfg0])

/-! ### Shape lemmas for the forward passes -/

theorem except_bind_ok {α β : Type} {x : Except String α} {f : α → Except String β} {b : β}
    (h : x >>= f = Except.ok b) : ∃ a, x = Except.ok a ∧ f a = Except.ok b := by
  cases x with
  | ok a => exact ⟨a, rfl, h⟩
  | error e => simp [bind, Except.bind] at h

theorem lstmShape_ok {input_size hidden_dim n_layers B T E : Nat}
    {h : HiddenShape × HiddenShape} {o : Shape}
    (hok : lstmShape input_size hidden_dim n_layers [B, T, E] h = Except.ok o) :
    o = [B, T, hidden_dim] := by
  simp only [lstmShape] at hok
  split at hok
  · exact absurd hok (by simp)
  · split at hok
    · exact absurd hok (by simp)
    · exact (Except.ok.injEq _ _ ▸ hok).symm ▸ rfl

theorem indexLastShape_ok {B T H : Nat} {o : Shape}
    (hok : indexLastShape [B, T, H] = Except.ok o) : o = [B, H] := by
  simp only [indexLastShape] at hok
  split at hok
  · exact absurd hok (by simp)
  · injection hok with h
    exact h.symm

theorem linearShape_ok {i j : Nat} {s o : Shape}
    (hok : linearShape i j s = Except.ok o) : o = s.dropLast ++ [j] := by
  simp only [linearShape] at hok
  split at hok
  · split at hok
    · injection hok with h
      exact h.symm
    · exact absurd hok (by simp)
  · exact absurd hok (by simp)

theorem viewBatchShape_ok {B : Nat} {s o : Shape}
    (hok : viewBatchShape B s = Except.ok o) : B ≠ 0 ∧ o = [B, s.prod / B] := by
  simp only [viewBatchShape] at hok
  split at hok
  · rename_i hc
    injection hok with h
    exact ⟨hc.1, h.symm⟩
  · exact absurd hok (by simp)

/-- `RNN.forward` on a 2d input of batch size `B`, when it succeeds, returns
scores of shape `(B, output_size)`. -/
theorem rnn_forwardShape_ok (cfg : RNNCfg) (B T : Nat) (h : HiddenShape × HiddenShape)
    (s : Shape) (hok : RNN.forwardShape cfg [B, T] h = Except.ok s) :
    s = [B, cfg.output_size] := by
  simp only [RNN.forwardShape, embeddingShape, List.cons_append, List.nil_append,
    dropoutShape, sigmoidShape] at hok
  obtain ⟨lstm_out, hl, hok⟩ := except_bind_ok hok
  obtain ⟨out1, hi, hok⟩ := except_bind_ok hok
  obtain ⟨out3, hlin, hok⟩ := except_bind_ok hok
  have e1 := lstmShape_ok hl
  subst e1
  have e2 := indexLastShape_ok hi
  subst e2
  have e3 := linearShape_ok hlin
  subst e3
  obtain ⟨hB, e4⟩ := viewBatchShape_ok hok
  subst e4
  simp [List.prod, Nat.mul_div_cancel_left _ (Nat.pos_of_ne_zero hB)]

theorem convBranchShape_ok {E B T : Nat} {p : Nat × Nat} {s : Shape}
    (hok : convBranchShape E [B, 1, T, E] p = Except.ok s) : s = [B, p.1] := by
  simp only [convBranchShape] at hok
  obtain ⟨c, hc, hok⟩ := except_bind_ok hok
  simp only [conv2dShape] at hc
  split at hc
  · exact absurd hc (by simp)
  · split at hc
    · exact absurd hc (by simp)
    · split at hc
      · exact absurd hc (by simp)
      · injection hc with hc2
        subst hc2
        simp only [Nat.sub_self, Nat.zero_add, squeezeShape, List.get?,
          List.take, List.drop, if_pos, List.cons_append, List.nil_append,
          reduceIte] at hok
        obtain ⟨c2, hp, hok⟩ := except_bind_ok hok
        simp only [maxPool1dFullShape] at hp
        split at hp
        · exact absurd hp (by simp)
        · injection hp with hp2
          subst hp2
          simp only [squeezeShape, List.get?, List.take, List.drop, reduceIte] at hok
          injection hok with hok2
          exact hok2.symm

theorem convBranches_cons_ok {E : Nat} {u : Shape} {p : Nat × Nat} {l : List (Nat × Nat)}
    {out : List Shape} (hok : convBranches E u (p :: l) = Except.ok out) :
    ∃ s rest2, out = s :: rest2 ∧ convBranchShape E u p = Except.ok s := by
  simp only [convBranches] at hok
  obtain ⟨s, hs, hok⟩ := except_bind_ok hok
  obtain ⟨rest2, hr, hok⟩ := except_bind_ok hok
  injection hok with h2
  exact ⟨s, rest2, h2.symm, hs⟩

theorem catGo_ok {B0 : Nat} :
    ∀ (l : List Shape) (n0 : Nat) (c : Shape), catGo [B0, n0] l = Except.ok c →
      ∃ m, c = [B0, m] := by
  intro l
  induction l with
  | nil =>
    intro n0 c h
    injection h with h2
    exact ⟨n0, h2.symm⟩
  | cons s rest ih =>
    intro n0 c h
    rcases s with _ | ⟨B1, _ | ⟨n1, _ | t⟩⟩
    · simp [catGo] at h
    · simp [catGo] at h
    · simp only [catGo] at h
      split at h
      · exact ih _ _ h
      · exact absurd h (by simp)
    · simp [catGo] at h

/-- `CNN.forward` on a 2d input of batch size `B`, when it succeeds, returns
scores of shape `(B, 5)` — five classes, hardcoded at line 54. -/
theorem cnn_forwardShape_ok (cfg : CNNCfg) (B T : Nat) (s : Shape)
    (hok : CNN.forwardShape cfg [B, T] = Except.ok s) : s = [B, 5] := by
  simp only [CNN.forwardShape, embeddingShape, unsqueeze1Shape, List.cons_append,
    List.nil_append, List.take, List.drop, dropoutShape] at hok
  obtain ⟨branches, hb, hok⟩ := except_bind_ok hok
  obtain ⟨catted, hc, hok⟩ := except_bind_ok hok
  rcases hz : cfg.num_filters.zip cfg.filter_sizes with _ | ⟨p, rest⟩
  · rw [hz] at hb
    simp only [convBranches] at hb
    injection hb with hb2
    subst hb2
    simp [catDim1Shape] at hc
  · rw [hz] at hb
    obtain ⟨s0, rest2, hout, hbranch⟩ := convBranches_cons_ok hb
    have hs0 : s0 = [B, p.1] := convBranchShape_ok hbranch
    subst hout hs0
    simp only [catDim1Shape] at hc
    obtain ⟨m, hm⟩ := catGo_ok rest2 p.1 catted hc
    subst hm
    split at hok
    · have h5 := linearShape_ok hok
      simp [List.dropLast] at h5
      exact h5
    · exact absurd hok (by simp)

/-- `CamembertClassifier.forward` on 2d token ids of batch size `B`, when it
succeeds, returns logits of shape `(B, 5)` — five classes, hardcoded at
line 72. -/
theorem bert_forwardShape_ok (cfg : BertCfg) (B T : Nat) (attn : Shape) (s : Shape)
    (hok : CamembertClassifier.forwardShape cfg [B, T] attn = Except.ok s) :
    s = [B, 5] := by
  simp only [CamembertClassifier.forwardShape] at hok
  obtain ⟨reps, hr, hok⟩ := except_bind_ok hok
  obtain ⟨cls, hcl, hok⟩ := except_bind_ok hok
  rcases attn with _ | ⟨B2, _ | ⟨T2, _ | t⟩⟩
  · simp [encoderShape] at hr
  · simp [encoderShape] at hr
  · simp only [encoderShape] at hr
    split at hr
    · injection hr with hr2
      subst hr2
      simp only [indexClsShape] at hcl
      split at hcl
      · exact absurd hcl (by simp)
      · injection hcl with hcl2
        subst hcl2
        have h5 := linearShape_ok hok
        simpa [List.dropLast] using h5
    · exact absurd hr (by simp)
  · simp [encoderShape] at hr

/-- C6: for each variant, a successful `forward` on a batch of size `B`
yields a score tensor of shape `(B, number_of_classes)`: `output_size` for
the RNN (its configured output size) and `5` for the CNN and the Camembert
classifier (their hardcoded output size). -/
theorem C6_forward_output_shape :
    (∀ (cfg : RNNCfg) (B T : Nat) (h : HiddenShape × HiddenShape) (s : Shape),
      RNN.forwardShape cfg [B, T] h = Except.ok s → s = [B, cfg.output_size]) ∧
    (∀ (cfg : CNNCfg) (B T : Nat) (s : Shape),
      CNN.forwardShape cfg [B, T] = Except.ok s → s = [B, 5]) ∧
    (∀ (cfg : BertCfg) (B T : Nat) (attn : Shape) (s : Shape),
      CamembertClassifier.forwardShape cfg [B, T] attn = Except.ok s → s = [B, 5]) :=
  ⟨rnn_forwardShape_ok, cnn_forwardShape_ok, bert_forwardShape_ok⟩

/-- C6 witness: concrete configurations and inputs for all three variants. -/
theorem C6_forward_output_shape_witness :
    (([2, 4] : Shape) = [2, rnnCfg0.output_size]) ∧
    (([3, 5] : Shape) = [3, 5]) ∧
    (([2, 5] : Shape) = [2, 5]) :=
  ⟨C6_forward_output_shape.1 rnnCfg0 2 3 (init_hidden 2 6 2) [2, 4] (by rfl),
   C6_forward_output_shape.2.1 cnnCfg0 3 7 [3, 5] (by rfl),
   C6_forward_output_shape.2.2 bertCfg0 2 3 [2, 3] [2, 5] (by rfl)⟩

end Classifiers
